import Mathlib

/-!
Verification of the chess-pgn-recorder core: the SAN shape validator
(`move_validator.py`), the game session (`chess_game.py`) and the PGN move
renderer (`pgn_exporter.py`), together with a board/rules engine modelled
from the specification (the source delegates board state and legality to an
external library).  Strings are embedded as `List Char`; Python functions
become Lean functions with explicit state passing, and a raised Python
exception becomes a dedicated `PyResult.raised` constructor.
-/

set_option maxRecDepth 10000

/-- Convert a string literal to the `List Char` representation used throughout. -/
def strL (s : String) : List Char := s.toList

/-- The apostrophe character (written via its code point). -/
def apos : Char := Char.ofNat 39

/-- Wrap a string in apostrophes, as Python f-strings like `'{move}'` do. -/
def quoteA (s : List Char) : List Char := apos :: s ++ [apos]

/-- ASCII whitespace test used to model Python `str.strip`. -/
def isSpaceChar (c : Char) : Bool := c == ' ' || c == '\t' || c == '\n' || c == '\r'

/-- Model of Python `str.strip`: drop whitespace from both ends. -/
def trimChars (l : List Char) : List Char :=
  ((l.dropWhile isSpaceChar).reverse.dropWhile isSpaceChar).reverse

/-- ASCII lowercase letter, the `[a-z]` character class. -/
def isAsciiLower (c : Char) : Bool := 'a' ≤ c && c ≤ 'z'

/-- ASCII uppercase letter, the `[A-Z]` character class. -/
def isAsciiUpper (c : Char) : Bool := 'A' ≤ c && c ≤ 'Z'

/-- The `[a-h]` file-letter character class. -/
def isFileChar (c : Char) : Bool := 'a' ≤ c && c ≤ 'h'

/-- The `[1-8]` rank character class. -/
def isRankChar (c : Char) : Bool := '1' ≤ c && c ≤ '8'

/-- The `[18]` promotion-rank character class. -/
def isRank18 (c : Char) : Bool := c == '1' || c == '8'

/-- The `[KQRBN]` piece-letter character class. -/
def isPieceChar (c : Char) : Bool :=
  c == 'K' || c == 'Q' || c == 'R' || c == 'B' || c == 'N'

/-- The `[QRBN]` promotion-piece character class. -/
def isPromoChar (c : Char) : Bool := c == 'Q' || c == 'R' || c == 'B' || c == 'N'

/-- Lowercase piece letters, the `"kqrbn"` membership test of the validator. -/
def isLcPiece (c : Char) : Bool :=
  c == 'k' || c == 'q' || c == 'r' || c == 'b' || c == 'n'

/-- The `"xkqrbn"` membership test of the validator's character scan. -/
def isXkqrbn (c : Char) : Bool := c == 'x' || isLcPiece c

/-! ### Regex shapes of `MoveValidator`

Each pattern of `move_validator.py` is embedded as a matcher over the same
language.  A matcher threads the set of possible remainders of the input
through each regex atom: `stepP` consumes one mandatory character, `optP`
an optional one. -/

/-- Consume one character satisfying `p` from every candidate remainder. -/
def stepP (p : Char → Bool) (css : List (List Char)) : List (List Char) :=
  css.filterMap fun cs =>
    match cs with
    | c :: r => if p c then some r else none
    | [] => none

/-- Optionally consume one character satisfying `p` (the regex `?`). -/
def optP (p : Char → Bool) (css : List (List Char)) : List (List Char) :=
  css ++ stepP p css

/-- Tail of `[!?]*`: every remaining character is an annotation mark. -/
def annTail (cs : List Char) : Bool := cs.all fun c => c == '!' || c == '?'

/-- The common `[+#]?[!?]*$` suffix of all five move patterns. -/
def suffixMatchB (cs : List Char) : Bool :=
  annTail cs ||
    (match cs with
     | c :: r => (c == '+' || c == '#') && annTail r
     | [] => false)

/-- The `CASTLING` pattern `^O-O(-O)?[+#]?[!?]*$`. -/
def castlingMatch (m : List Char) : Bool :=
  let base := stepP (· == 'O') (stepP (· == '-') (stepP (· == 'O') [m]))
  let ext := stepP (· == 'O') (stepP (· == '-') base)
  (base ++ ext).any suffixMatchB

/-- The `PAWN_PROMOTION` pattern `^[a-h]?x?[a-h][18]=[QRBN][+#]?[!?]*$`. -/
def pawnPromotionMatch (m : List Char) : Bool :=
  (stepP isPromoChar (stepP (· == '=') (stepP isRank18 (stepP isFileChar
    (optP (· == 'x') (optP isFileChar [m])))))).any suffixMatchB

/-- The `PAWN_CAPTURE` pattern `^[a-h]x[a-h][1-8][+#]?[!?]*$`. -/
def pawnCaptureMatch (m : List Char) : Bool :=
  (stepP isRankChar (stepP isFileChar (stepP (· == 'x')
    (stepP isFileChar [m])))).any suffixMatchB

/-- The `PAWN_MOVE` pattern `^[a-h][1-8][+#]?[!?]*$`. -/
def pawnMoveMatch (m : List Char) : Bool :=
  (stepP isRankChar (stepP isFileChar [m])).any suffixMatchB

/-- The `PIECE_MOVE` pattern `^[KQRBN][a-h]?[1-8]?x?[a-h][1-8][+#]?[!?]*$`. -/
def pieceMoveMatch (m : List Char) : Bool :=
  (stepP isRankChar (stepP isFileChar (optP (· == 'x') (optP isRankChar
    (optP isFileChar (stepP isPieceChar [m])))))).any suffixMatchB

/-- Disjunction over the validator's pattern dictionary. -/
def anyPattern (m : List Char) : Bool :=
  castlingMatch m || pawnPromotionMatch m || pawnCaptureMatch m ||
    pawnMoveMatch m || pieceMoveMatch m

/-! ### Messages of `MoveValidator.validate_move` -/

/-- Message for the lowercase-piece branch: it names the uppercase correction. -/
def uppercase_msg (m : List Char) : List Char :=
  match m with
  | [] => []
  | c :: rest =>
    strL "Piece notation must be uppercase (use " ++
      quoteA (c.toUpper :: rest) ++ strL " instead of " ++ quoteA (c :: rest) ++
      strL ")"

/-- Message for a digit outside `1`–`8`. -/
def invalid_rank_msg (c : Char) : List Char :=
  strL "Invalid rank " ++ quoteA [c] ++ strL ": ranks must be 1-8"

/-- Message for a lowercase letter that is neither a file nor in `xkqrbn`. -/
def invalid_char_msg (c : Char) : List Char :=
  strL "Invalid character " ++ quoteA [c] ++ strL " in move"

/-- Message for a promotion piece outside `QRBN`. -/
def promo_piece_msg (c : Char) : List Char :=
  strL "Invalid promotion piece " ++ quoteA [c] ++
    strL ": can only promote to Q, R, B, or N"

/-- Message for `=` not followed by an uppercase letter. -/
def promo_format_msg : List Char :=
  strL "Invalid promotion format: use " ++ quoteA (strL "=Q") ++ strL ", " ++
    quoteA (strL "=R") ++ strL ", " ++ quoteA (strL "=B") ++ strL ", or " ++
    quoteA (strL "=N")

/-- Prefix test used for the `o-o` branch of the fallback error message. -/
def hasLead : List Char → List Char → Bool
  | [], _ => true
  | _ :: _, [] => false
  | p :: ps, c :: cs => p == c && hasLead ps cs

/-- The fallback error text of `_generate_error_message`. -/
def generate_error_message (m : List Char) : List Char :=
  if hasLead (strL "o-o") (m.map Char.toLower) then
    strL "Invalid castling notation: use " ++ quoteA (strL "O-O") ++
      strL " (kingside) or " ++ quoteA (strL "O-O-O") ++
      strL " (queenside) with capital letter O"
  else if m.contains '=' then
    strL "Invalid promotion format: examples - e8=Q, axb8=N, d1=R+"
  else if m.contains 'x' && decide (3 ≤ m.length) then
    strL "Invalid capture notation: examples - exd5, Nxf6, Bxc4"
  else
    strL "Invalid move format: " ++ quoteA m ++
      strL "\nValid examples:\n  - Pawn moves: e4, d5\n  - Piece moves: Nf3, Bb5, Qd4\n  - Captures: exd5, Nxf6\n  - Castling: O-O, O-O-O\n  - Promotion: e8=Q, axb8=N\n  - Check/Checkmate: Nf7+, Qh5#"

/-- The early lowercase-piece rejection test of `validate_move`:
`move[0] in "kqrbn"` and not a bare two-character square. -/
def lowercase_reject (m : List Char) : Bool :=
  match m with
  | [] => false
  | c :: rest =>
    isLcPiece c && !(rest.length == 1 && isRankChar (rest.headD ' '))

/-- Model of `re.search r"=([A-Z])"`: the first `=` followed by an uppercase
letter, returning that letter. -/
def find_promo : List Char → Option Char
  | [] => none
  | '=' :: c :: rest => if isAsciiUpper c then some c else find_promo (c :: rest)
  | _ :: rest => find_promo rest

/-- Shared tail of `validate_move`: the pattern dictionary scan. -/
def pattern_result (move : List Char) : Bool × List Char :=
  if anyPattern move then (true, []) else (false, generate_error_message move)

/-- Embedding of `MoveValidator.validate_move`. -/
def validate_move (move0 : List Char) : Bool × List Char :=
  if move0.isEmpty || (trimChars move0).isEmpty then
    (false, strL "Move cannot be empty")
  else
    let move := trimChars move0
    if lowercase_reject move then (false, uppercase_msg move)
    else
      match (move.filter Char.isDigit).find? (fun c => !isRankChar c) with
      | some c => (false, invalid_rank_msg c)
      | none =>
        match (move.filter isAsciiLower).find?
            (fun c => !isFileChar c && !isXkqrbn c) with
        | some c => (false, invalid_char_msg c)
        | none =>
          if move.contains '=' then
            match find_promo move with
            | some p =>
              if !isPromoChar p then (false, promo_piece_msg p)
              else pattern_result move
            | none => (false, promo_format_msg)
          else pattern_result move

/-! ### Board, position and legal-move engine

The source delegates board state, legality and SAN resolution to an external
chess library that is not part of this repository; the definitions below are
modelled from the specification (sections 4.1 and 4.2): piece placement plus
side to move, castling rights, en-passant target and move counters; a
pseudo-legal generator filtered by own-king safety; and a SAN parser that
resolves a shape against the legal-move set. -/

/-- Side to move / piece colour. -/
inductive Side where
  | white
  | black
deriving DecidableEq

/-- The opposite side. -/
def Side.other : Side → Side
  | .white => .black
  | .black => .white

/-- Kinds of chess pieces. -/
inductive PieceKind where
  | pawn
  | knight
  | bishop
  | rook
  | queen
  | king
deriving DecidableEq

/-- A piece: kind plus colour. -/
structure Piece where
  kind : PieceKind
  side : Side
deriving DecidableEq

/-- Modelled from the spec: a Position value — board mapping (index =
rank*8 + file, `a1` = 0), side to move, castling rights, en-passant target
and move counters. -/
structure Position where
  board : List (Option Piece)
  sideToMove : Side
  castleWK : Bool
  castleWQ : Bool
  castleBK : Bool
  castleBQ : Bool
  enPassantTarget : Option Nat
  halfmoveClock : Nat
  fullmoveNumber : Nat
deriving DecidableEq

/-- A move: origin and destination squares, optional promotion kind.
Castling is the king moving two files; en passant is a pawn capture onto
the en-passant target square. -/
structure Move where
  fromSq : Nat
  toSq : Nat
  promo : Option PieceKind
deriving DecidableEq

/-- File (0–7) of a square index. -/
def fileOf (sq : Nat) : Nat := sq % 8

/-- Rank (0–7) of a square index. -/
def rankOf (sq : Nat) : Nat := sq / 8

/-- Build a square from integer coordinates, `none` when off the board. -/
def mkSq? (f r : Int) : Option Nat :=
  if 0 ≤ f ∧ f < 8 ∧ 0 ≤ r ∧ r < 8 then some (r.toNat * 8 + f.toNat) else none

/-- The piece on a square. -/
def pieceAt (pos : Position) (sq : Nat) : Option Piece :=
  (pos.board.getD sq none)

/-- The standard back rank, files a through h. -/
def backRank : List PieceKind :=
  [.rook, .knight, .bishop, .queen, .king, .bishop, .knight, .rook]

/-- The standard initial piece placement. -/
def startBoard : List (Option Piece) :=
  (backRank.map fun k => some ⟨k, .white⟩) ++
    List.replicate 8 (some ⟨.pawn, .white⟩) ++
    List.replicate 32 none ++
    List.replicate 8 (some ⟨.pawn, .black⟩) ++
    (backRank.map fun k => some ⟨k, .black⟩)

/-- Modelled from the spec: the standard initial Position. -/
def startPos : Position :=
  { board := startBoard, sideToMove := .white,
    castleWK := true, castleWQ := true, castleBK := true, castleBQ := true,
    enPassantTarget := none, halfmoveClock := 0, fullmoveNumber := 1 }

/-- Knight move offsets. -/
def knightOffsets : List (Int × Int) :=
  [(1, 2), (2, 1), (2, -1), (1, -2), (-1, -2), (-2, -1), (-2, 1), (-1, 2)]

/-- King move offsets. -/
def kingOffsets : List (Int × Int) :=
  [(1, 0), (1, 1), (0, 1), (-1, 1), (-1, 0), (-1, -1), (0, -1), (1, -1)]

/-- Rook / orthogonal ray directions. -/
def rookDirs : List (Int × Int) := [(1, 0), (-1, 0), (0, 1), (0, -1)]

/-- Bishop / diagonal ray directions. -/
def bishopDirs : List (Int × Int) := [(1, 1), (1, -1), (-1, 1), (-1, -1)]

/-- First piece encountered walking from `(f, r)` in direction `(df, dr)`
(the starting coordinates are already one step out). -/
def firstOnRay (pos : Position) (df dr : Int) : Nat → Int → Int → Option Piece
  | 0, _, _ => none
  | fuel + 1, f, r =>
    match mkSq? f r with
    | none => none
    | some t =>
      match pieceAt pos t with
      | some p => some p
      | none => firstOnRay pos df dr fuel (f + df) (r + dr)

/-- Modelled from the spec: is `sq` attacked by any piece of `att`?
Checked from the target square outwards: pawn diagonals, knight and king
offsets, and the first piece on each sliding ray. -/
def attackedBy (pos : Position) (sq : Nat) (att : Side) : Bool :=
  let f : Int := fileOf sq
  let r : Int := rankOf sq
  let pawnDir : Int := if att = .white then 1 else -1
  let pawnHit := [(-1 : Int), 1].any fun df =>
    match mkSq? (f + df) (r - pawnDir) with
    | some s => pieceAt pos s == some ⟨.pawn, att⟩
    | none => false
  let knightHit := knightOffsets.any fun d =>
    match mkSq? (f + d.1) (r + d.2) with
    | some s => pieceAt pos s == some ⟨.knight, att⟩
    | none => false
  let kingHit := kingOffsets.any fun d =>
    match mkSq? (f + d.1) (r + d.2) with
    | some s => pieceAt pos s == some ⟨.king, att⟩
    | none => false
  let rookHit := rookDirs.any fun d =>
    match firstOnRay pos d.1 d.2 7 (f + d.1) (r + d.2) with
    | some p => (p.kind == .rook || p.kind == .queen) && p.side == att
    | none => false
  let bishopHit := bishopDirs.any fun d =>
    match firstOnRay pos d.1 d.2 7 (f + d.1) (r + d.2) with
    | some p => (p.kind == .bishop || p.kind == .queen) && p.side == att
    | none => false
  pawnHit || knightHit || kingHit || rookHit || bishopHit

/-- Sliding moves along one ray: stop at the first occupied square,
capturing an enemy piece there. -/
def rayMoves (pos : Position) (side : Side) (src : Nat) (df dr : Int) :
    Nat → Int → Int → List Move
  | 0, _, _ => []
  | fuel + 1, f, r =>
    match mkSq? f r with
    | none => []
    | some t =>
      match pieceAt pos t with
      | none => ⟨src, t, none⟩ :: rayMoves pos side src df dr fuel (f + df) (r + dr)
      | some p => if p.side = side then [] else [⟨src, t, none⟩]

/-- Offset moves (knight, king): target must not hold a friendly piece. -/
def offsetMoves (pos : Position) (side : Side) (src : Nat)
    (offs : List (Int × Int)) : List Move :=
  offs.filterMap fun d =>
    match mkSq? ((fileOf src : Int) + d.1) ((rankOf src : Int) + d.2) with
    | none => none
    | some t =>
      match pieceAt pos t with
      | some p => if p.side = side then none else some ⟨src, t, none⟩
      | none => some ⟨src, t, none⟩

/-- Pawn moves to `t`, fanned out over the four promotion kinds when the
destination is the last rank. -/
def pawnTargets (side : Side) (src t : Nat) : List Move :=
  let lastRank : Nat := if side = .white then 7 else 0
  if rankOf t = lastRank then
    [⟨src, t, some .queen⟩, ⟨src, t, some .rook⟩,
     ⟨src, t, some .bishop⟩, ⟨src, t, some .knight⟩]
  else [⟨src, t, none⟩]

/-- Modelled from the spec: pseudo-legal pawn moves — single push, double
push from the starting rank through an empty square, diagonal captures,
en-passant capture onto the target square, with promotions on the last
rank. -/
def pawnMoves (pos : Position) (side : Side) (src : Nat) : List Move :=
  let f : Int := fileOf src
  let r : Int := rankOf src
  let dir : Int := if side = .white then 1 else -1
  let startRank : Nat := if side = .white then 1 else 6
  let push1 :=
    match mkSq? f (r + dir) with
    | some t =>
      if pieceAt pos t = none then
        pawnTargets side src t ++
          (if rankOf src = startRank then
            match mkSq? f (r + 2 * dir) with
            | some t2 => if pieceAt pos t2 = none then [⟨src, t2, none⟩] else []
            | none => []
          else [])
      else []
    | none => []
  let caps := [(-1 : Int), 1].flatMap fun df =>
    match mkSq? (f + df) (r + dir) with
    | some t =>
      match pieceAt pos t with
      | some p => if p.side = side then [] else pawnTargets side src t
      | none => if pos.enPassantTarget = some t then [⟨src, t, none⟩] else []
    | none => []
  push1 ++ caps

/-- Modelled from the spec: castling generation — flag set, involved squares
empty, king/rook on their home squares, and none of the king's start,
transit or destination squares attacked. -/
def castleMoves (pos : Position) (side : Side) : List Move :=
  let opp := side.other
  let base : Nat := if side = .white then 0 else 56
  let kingHome := base + 4
  let kRight := if side = .white then pos.castleWK else pos.castleBK
  let qRight := if side = .white then pos.castleWQ else pos.castleBQ
  let kingside :=
    if kRight &&
        pieceAt pos kingHome == some ⟨.king, side⟩ &&
        pieceAt pos (base + 7) == some ⟨.rook, side⟩ &&
        pieceAt pos (base + 5) == none && pieceAt pos (base + 6) == none &&
        !attackedBy pos kingHome opp && !attackedBy pos (base + 5) opp &&
        !attackedBy pos (base + 6) opp then
      [⟨kingHome, base + 6, none⟩]
    else []
  let queenside :=
    if qRight &&
        pieceAt pos kingHome == some ⟨.king, side⟩ &&
        pieceAt pos base == some ⟨.rook, side⟩ &&
        pieceAt pos (base + 1) == none && pieceAt pos (base + 2) == none &&
        pieceAt pos (base + 3) == none &&
        !attackedBy pos kingHome opp && !attackedBy pos (base + 3) opp &&
        !attackedBy pos (base + 2) opp then
      [⟨kingHome, base + 2, none⟩]
    else []
  kingside ++ queenside

/-- Modelled from the spec: all pseudo-legal moves for the side to move. -/
def pseudoMoves (pos : Position) : List Move :=
  let side := pos.sideToMove
  ((List.range 64).flatMap fun src =>
    match pieceAt pos src with
    | some p =>
      if p.side = side then
        match p.kind with
        | .pawn => pawnMoves pos side src
        | .knight => offsetMoves pos side src knightOffsets
        | .king => offsetMoves pos side src kingOffsets
        | .rook =>
          rookDirs.flatMap fun d =>
            rayMoves pos side src d.1 d.2 7
              ((fileOf src : Int) + d.1) ((rankOf src : Int) + d.2)
        | .bishop =>
          bishopDirs.flatMap fun d =>
            rayMoves pos side src d.1 d.2 7
              ((fileOf src : Int) + d.1) ((rankOf src : Int) + d.2)
        | .queen =>
          (rookDirs ++ bishopDirs).flatMap fun d =>
            rayMoves pos side src d.1 d.2 7
              ((fileOf src : Int) + d.1) ((rankOf src : Int) + d.2)
      else []
    | none => []) ++ castleMoves pos side

/-- Replace the content of one square. -/
def setSq (b : List (Option Piece)) (sq : Nat) (v : Option Piece) :
    List (Option Piece) :=
  b.set sq v

/-- Modelled from the spec: `applyMove` — move/remove pieces (including the
en-passant victim and the castling rook), apply promotion, update castling
rights, set or clear the en-passant target, update the clocks and flip the
side to move. -/
def applyMove (pos : Position) (m : Move) : Position :=
  let p := (pieceAt pos m.fromSq).getD ⟨.pawn, pos.sideToMove⟩
  let isEP := p.kind = .pawn && pos.enPassantTarget == some m.toSq &&
    fileOf m.fromSq != fileOf m.toSq && pieceAt pos m.toSq == none
  let isCapture := (pieceAt pos m.toSq).isSome || isEP
  let placed : Piece := ⟨m.promo.getD p.kind, p.side⟩
  let b1 := setSq pos.board m.fromSq none
  let b2 := setSq b1 m.toSq (some placed)
  let b3 := if isEP then setSq b2 (rankOf m.fromSq * 8 + fileOf m.toSq) none else b2
  let b4 :=
    if p.kind = .king && fileOf m.toSq + 0 == fileOf m.fromSq + 2 then
      -- kingside castle: rook h-file to f-file
      setSq (setSq b3 (rankOf m.fromSq * 8 + 7) none)
        (rankOf m.fromSq * 8 + 5) (some ⟨.rook, p.side⟩)
    else if p.kind = .king && fileOf m.toSq + 2 == fileOf m.fromSq + 0 then
      -- queenside castle: rook a-file to d-file
      setSq (setSq b3 (rankOf m.fromSq * 8) none)
        (rankOf m.fromSq * 8 + 3) (some ⟨.rook, p.side⟩)
    else b3
  let clearsWK := m.fromSq == 4 || m.fromSq == 7 || m.toSq == 7 ||
    (p.side == Side.white && p.kind == PieceKind.king)
  let clearsWQ := m.fromSq == 4 || m.fromSq == 0 || m.toSq == 0 ||
    (p.side == Side.white && p.kind == PieceKind.king)
  let clearsBK := m.fromSq == 60 || m.fromSq == 63 || m.toSq == 63 ||
    (p.side == Side.black && p.kind == PieceKind.king)
  let clearsBQ := m.fromSq == 60 || m.fromSq == 56 || m.toSq == 56 ||
    (p.side == Side.black && p.kind == PieceKind.king)
  let ep :=
    if p.kind = .pawn && (rankOf m.toSq + 0 == rankOf m.fromSq + 2) then
      some ((rankOf m.fromSq + 1) * 8 + fileOf m.fromSq)
    else if p.kind = .pawn && (rankOf m.toSq + 2 == rankOf m.fromSq + 0) then
      some ((rankOf m.fromSq - 1) * 8 + fileOf m.fromSq)
    else none
  { board := b4,
    sideToMove := pos.sideToMove.other,
    castleWK := pos.castleWK && !clearsWK,
    castleWQ := pos.castleWQ && !clearsWQ,
    castleBK := pos.castleBK && !clearsBK,
    castleBQ := pos.castleBQ && !clearsBQ,
    enPassantTarget := ep,
    halfmoveClock := if p.kind = .pawn || isCapture then 0 else pos.halfmoveClock + 1,
    fullmoveNumber :=
      if pos.sideToMove = .black then pos.fullmoveNumber + 1 else pos.fullmoveNumber }

/-- Square of the king of `side`, if present. -/
def kingSquare (pos : Position) (side : Side) : Option Nat :=
  (List.range 64).find? fun sq => pieceAt pos sq = some ⟨.king, side⟩

/-- Modelled from the spec: legal moves — pseudo-legal moves whose
application leaves the mover's own king un-attacked. -/
def legalMoves (pos : Position) : List Move :=
  (pseudoMoves pos).filter fun m =>
    let pos2 := applyMove pos m
    match kingSquare pos2 pos.sideToMove with
    | some k => !attackedBy pos2 k pos.sideToMove.other
    | none => false

/-! ### SAN parsing (spec section 4.2) -/

/-- Errors of the SAN codec. -/
inductive SanErr where
  | emptyInput
  | badShape
  | illegalMove
  | ambiguousMove
deriving DecidableEq

/-- The check/mate/annotation suffix characters, informational only. -/
def isSuffixChar (c : Char) : Bool := c == '+' || c == '#' || c == '!' || c == '?'

/-- Strip the trailing check/mate/annotation suffix of a SAN string. -/
def stripSanSuffix (san : List Char) : List Char :=
  (san.reverse.dropWhile isSuffixChar).reverse

/-- Piece kind denoted by an uppercase SAN letter. -/
def kindOfChar (c : Char) : Option PieceKind :=
  if c == 'K' then some .king
  else if c == 'Q' then some .queen
  else if c == 'R' then some .rook
  else if c == 'B' then some .bishop
  else if c == 'N' then some .knight
  else none

/-- File index of a file letter. -/
def fileIdx (c : Char) : Nat := c.toNat - 'a'.toNat

/-- Rank index of a rank character. -/
def rankIdx (c : Char) : Nat := c.toNat - '1'.toNat

/-- Does this move capture something (directly or en passant)? -/
def moveIsCapture (pos : Position) (m : Move) : Bool :=
  (pieceAt pos m.toSq).isSome ||
    ((pieceAt pos m.fromSq).any (fun p => p.kind == .pawn) &&
      fileOf m.fromSq != fileOf m.toSq)

/-- Is this move a castle (king moving two files)? -/
def moveIsCastle (pos : Position) (m : Move) : Bool :=
  (pieceAt pos m.fromSq).any (fun p => p.kind == .king) &&
    (fileOf m.fromSq + 2 == fileOf m.toSq || fileOf m.toSq + 2 == fileOf m.fromSq)

/-- Components read off a non-castling SAN body. -/
structure SanParts where
  kind : PieceKind
  disFile : Option Nat
  disRank : Option Nat
  hasX : Bool
  dest : Nat
  promo : Option PieceKind
deriving DecidableEq

/-- Split a SAN body (suffix already stripped) into its components. -/
def sanParts (san : List Char) : Option SanParts :=
  let (body, promo?) :=
    match san.reverse with
    | p :: '=' :: rest => (rest.reverse, some p)
    | _ => (san, none)
  let promoKind : Option (Option PieceKind) :=
    match promo? with
    | none => some none
    | some p => match kindOfChar p with
      | some k => some (some k)
      | none => none
  match promoKind with
  | none => none
  | some promo =>
    match body.reverse with
    | rc :: fc :: pre_rev =>
      if isFileChar fc && isRankChar rc then
        let dest := rankIdx rc * 8 + fileIdx fc
        let pre := pre_rev.reverse
        let (kind, pre1) :=
          match pre with
          | c :: rest =>
            match kindOfChar c with
            | some k => (k, rest)
            | none => (PieceKind.pawn, pre)
          | [] => (PieceKind.pawn, pre)
        let (disF, pre2) :=
          match pre1 with
          | c :: rest => if isFileChar c then (some (fileIdx c), rest) else (none, pre1)
          | [] => (none, pre1)
        let (disR, pre3) :=
          match pre2 with
          | c :: rest => if isRankChar c then (some (rankIdx c), rest) else (none, pre2)
          | [] => (none, pre2)
        let (hasX, pre4) :=
          match pre3 with
          | 'x' :: rest => (true, rest)
          | _ => (false, pre3)
        if pre4 = [] then some ⟨kind, disF, disR, hasX, dest, promo⟩ else none
      else none
    | _ => none

/-- Modelled from the spec: resolve a SAN string against the legal-move set
of a Position — filter by destination, piece kind, capture flag, promotion
kind and the given disambiguators; zero matches is an illegal move, more
than one an ambiguous one.  The check/mate suffix is not validated. -/
def parseSan (pos : Position) (san0 : List Char) : Except SanErr Move :=
  if san0 = [] then .error .emptyInput
  else
    let san := stripSanSuffix san0
    if san = strL "O-O" || san = strL "O-O-O" then
      let wantFile : Nat := if san = strL "O-O" then 6 else 2
      match (legalMoves pos).filter
          (fun m => moveIsCastle pos m && fileOf m.toSq == wantFile) with
      | [m] => .ok m
      | _ => .error .illegalMove
    else
      match sanParts san with
      | none => .error .badShape
      | some parts =>
        let cands := (legalMoves pos).filter fun m =>
          (pieceAt pos m.fromSq).any (fun p => p.kind == parts.kind) &&
          m.toSq == parts.dest &&
          m.promo == parts.promo &&
          moveIsCapture pos m == parts.hasX &&
          !moveIsCastle pos m &&
          (match parts.disFile with
           | some f => fileOf m.fromSq == f
           | none => true) &&
          (match parts.disRank with
           | some r => rankOf m.fromSq == r
           | none => true)
        match cands with
        | [] => .error .illegalMove
        | [m] => .ok m
        | _ => .error .ambiguousMove

/-! ### The mutable library board: a stack of applied moves -/

/-- Model of the library board object: the stack of moves pushed since the
standard initial position (`push`/`pop` semantics). -/
structure Board where
  stack : List Move
deriving DecidableEq

/-- The Position reached by replaying the stack from the initial position. -/
def Board.position (b : Board) : Position :=
  b.stack.foldl applyMove startPos

/-- Push a move onto the board. -/
def Board.push (b : Board) (m : Move) : Board := ⟨b.stack ++ [m]⟩

/-- Pop the most recent move off the board (the library raises on an empty
stack; every use in the session pops a provably non-empty stack). -/
def Board.pop (b : Board) : Board := ⟨b.stack.dropLast⟩

/-- The side to move on the board. -/
def Board.turn (b : Board) : Side := b.position.sideToMove

/-- Parse-and-push (`board.push_san`), failing when the SAN does not
resolve to a legal move. -/
def push_san (b : Board) (san : List Char) : Option Board :=
  match parseSan b.position san with
  | .ok m => some (b.push m)
  | .error _ => none

deriving instance DecidableEq for Except

/-! ### The game session (`chess_game.py`) -/

/-- Result of a Python call that may raise: `ok` is a normal return,
`raised` an uncaught exception carrying its message. -/
inductive PyResult (α : Type) where
  | ok (val : α)
  | raised (msg : List Char)
deriving DecidableEq

/-- Is the call result a normal return? -/
def PyResult.isOk : PyResult α → Bool
  | .ok _ => true
  | .raised _ => false

/-- Python `dict.get(k, default)` over an insertion-ordered association list. -/
def dict_get (d : List (List Char × List Char)) (k dflt : List Char) : List Char :=
  match d.find? (fun kv => kv.1 == k) with
  | some kv => kv.2
  | none => dflt

/-- Python `dict[k] = v`: replace in place when the key exists, else append. -/
def dict_set (d : List (List Char × List Char)) (k v : List Char) :
    List (List Char × List Char) :=
  if (d.find? (fun kv => kv.1 == k)).isSome then
    d.map fun kv => if kv.1 == k then (kv.1, v) else kv
  else d ++ [(k, v)]

/-- State of `ChessGame`: metadata, completed move pairs, result string,
the library board, and the pending white half-move. -/
structure ChessGame where
  metadata : List (List Char × List Char)
  moves : List (List Char × Option (List Char))
  result : List Char
  board : Board
  pending_white_move : Option (List Char)
deriving DecidableEq

/-- The string `"white"`. -/
def white_str : List Char := strL "white"

/-- The string `"black"`. -/
def black_str : List Char := strL "black"

/-- `ChessGame.__init__`: empty history, result from the metadata
(default `*`), a fresh board, no pending white move. -/
def chess_game_init (metadata : List (List Char × List Char)) : ChessGame :=
  { metadata := metadata, moves := [],
    result := dict_get metadata (strL "Result") (strL "*"),
    board := ⟨[]⟩, pending_white_move := none }

/-- `ChessGame.add_move`: append a complete pair, or an incomplete one when
only the white half is given. -/
def add_move (moves : List (List Char × Option (List Char)))
    (white_move black_move : Option (List Char)) :
    List (List Char × Option (List Char)) :=
  match white_move, black_move with
  | some w, some b => moves ++ [(w, some b)]
  | some w, none => moves ++ [(w, none)]
  | none, _ => moves

/-- The message `It's White's/Black's turn to move`. -/
def turn_msg (expected_white : Bool) : List Char :=
  strL "It" ++ [apos] ++ strL "s " ++
    (if expected_white then strL "White" else strL "Black") ++ [apos] ++
    strL "s turn to move"

/-- The `Illegal move: ...` message (the exception detail of the library is
abstracted to the offending SAN). -/
def illegal_move_msg (san : List Char) : List Char :=
  strL "Illegal move: " ++ san

/-- Embedding of `ChessGame.validate_and_add_move`.  Note the faithful
order of effects: the move is parsed and pushed onto the board before the
pending-white-move check of the black branch. -/
def validate_and_add_move (g : ChessGame) (move color : List Char) :
    ChessGame × Bool × List Char :=
  if (validate_move move).1 = false then (g, false, (validate_move move).2)
  else if ¬((g.board.turn = Side.white) ↔ (color = white_str)) then
    (g, false, turn_msg (g.board.turn == Side.white))
  else
    match parseSan g.board.position move with
    | .error _ => (g, false, illegal_move_msg move)
    | .ok m =>
      let g1 : ChessGame := { g with board := g.board.push m }
      if color = white_str then
        ({ g1 with pending_white_move := some move }, true, [])
      else
        match g1.pending_white_move with
        | some p =>
          ({ g1 with moves := add_move g1.moves (some p) (some move),
                     pending_white_move := none }, true, [])
        | none =>
          (g1, false, strL "Cannot add black move without a white move first")

/-- Embedding of `ChessGame.finalize_pending_move`. -/
def finalize_pending_move (g : ChessGame) : ChessGame :=
  match g.pending_white_move with
  | some p =>
    { g with moves := add_move g.moves (some p) none, pending_white_move := none }
  | none => g

/-- Decimal digits of a natural number. -/
def nat_repr (n : Nat) : List Char := Nat.toDigits 10 n

/-- Decimal rendering of a Python integer. -/
def int_repr (n : Int) : List Char :=
  if n < 0 then '-' :: nat_repr (-n).toNat else nat_repr n.toNat

/-- The `temp_board` replay of `edit_move`: push every white SAN and every
truthy black SAN in order, failing when any ply is rejected. -/
def replay_pairs (b : Board) :
    List (List Char × Option (List Char)) → Option Board
  | [] => some b
  | (w, bm) :: rest =>
    match push_san b w with
    | none => none
    | some b1 =>
      match bm with
      | some bs =>
        if bs.isEmpty then replay_pairs b1 rest
        else
          match push_san b1 bs with
          | none => none
          | some b2 => replay_pairs b2 rest
      | none => replay_pairs b1 rest

/-- Embedding of `ChessGame.edit_move`: validate the shape, check the
1-indexed move number and the presence of a black half when editing one,
replay the modified sequence on a fresh board, and commit the new history
and board only when the whole replay succeeds. -/
def edit_move (g : ChessGame) (move_number : Int) (color new_move : List Char) :
    ChessGame × Bool × List Char :=
  if (validate_move new_move).1 = false then (g, false, (validate_move new_move).2)
  else if move_number < 1 ∨ move_number > (g.moves.length : Int) then
    (g, false, strL "Invalid move number: " ++ int_repr move_number)
  else
    let idx := (move_number - 1).toNat
    let pair := g.moves.getD idx ([], none)
    if color = black_str ∧ pair.2 = none then
      (g, false, strL "This move pair has no black move to edit")
    else
      let temp_moves :=
        if color = white_str then g.moves.set idx (new_move, pair.2)
        else g.moves.set idx (pair.1, some new_move)
      match replay_pairs ⟨[]⟩ temp_moves with
      | none => (g, false, strL "This edit would create an illegal position")
      | some temp_board =>
        ({ g with moves := temp_moves, board := temp_board }, true,
          strL "Move updated successfully")

/-- Embedding of `ChessGame.undo_last_move`. -/
def undo_last_move (g : ChessGame) : ChessGame × Bool :=
  match g.pending_white_move with
  | some _ => ({ g with board := g.board.pop, pending_white_move := none }, true)
  | none =>
    match g.moves.getLast? with
    | none => (g, false)
    | some (w, some _) =>
      ({ g with board := g.board.pop, moves := g.moves.dropLast,
                pending_white_move := some w }, true)
    | some (_, none) =>
      ({ g with board := g.board.pop, moves := g.moves.dropLast }, true)

/-- `ChessGame.get_move_count`. -/
def get_move_count (g : ChessGame) : Nat := g.moves.length

/-- `ChessGame.get_moves_list` (Python returns a copy of the list). -/
def get_moves_list (g : ChessGame) :
    List (List Char × Option (List Char)) := g.moves

/-- `ChessGame.has_pending_white_move`. -/
def has_pending_white_move (g : ChessGame) : Bool :=
  g.pending_white_move.isSome

/-- The four accepted result strings, in source order. -/
def valid_results : List (List Char) :=
  [strL "1-0", strL "0-1", strL "1/2-1/2", strL "*"]

/-- The `ValueError` message of `set_result`, with the Python list repr. -/
def invalid_result_msg (r : List Char) : List Char :=
  strL "Invalid result: " ++ r ++ strL ". Must be one of [" ++
    List.intercalate (strL ", ") (valid_results.map quoteA) ++ strL "]"

/-- Embedding of `ChessGame.set_result`: a valid result updates both the
`result` field and `metadata["Result"]`; any other string raises
`ValueError`. -/
def set_result (g : ChessGame) (result : List Char) : PyResult ChessGame :=
  if result ∈ valid_results then
    .ok { g with result := result,
                 metadata := dict_set g.metadata (strL "Result") result }
  else .raised (invalid_result_msg result)

/-! ### The PGN move renderer (`pgn_exporter.py`) -/

/-- Python truthiness of an optional string: `None` and `""` are falsy. -/
def option_truthy : Option (List Char) → Bool
  | none => false
  | some s => !s.isEmpty

/-- One line of `format_moves`: `"<i>. <white> <black> "` when the black
half is truthy, else `"<i>. <white> "`. -/
def line_text (i : Nat) (w : List Char) (b : Option (List Char)) : List Char :=
  if option_truthy b then
    nat_repr i ++ strL ". " ++ w ++ [' '] ++ b.getD [] ++ [' ']
  else nat_repr i ++ strL ". " ++ w ++ [' ']

/-- The `enumerate(moves, 1)` loop of `format_moves`. -/
def format_lines (i : Nat) :
    List (List Char × Option (List Char)) → List (List Char)
  | [] => []
  | p :: rest => line_text i p.1 p.2 :: format_lines (i + 1) rest

/-- Embedding of `PGNExporter.format_moves`: an empty move list renders as
the result alone; otherwise the rendered lines followed by the result,
joined with newlines. -/
def format_moves (moves : List (List Char × Option (List Char)))
    (result : List Char) : List Char :=
  if moves.isEmpty then result
  else List.intercalate ['\n'] (format_lines 1 moves ++ [result])

/-! ### Spec-side definitions used to state the claims -/

/-- The SAN half-moves of a session in order: every white and black half of
`moveRecords()` followed by `pendingWhiteSan()` when present (the spec's
replay sequence). -/
def sans_of (g : ChessGame) : List (List Char) :=
  (g.moves.flatMap fun p =>
    p.1 :: (match p.2 with | some b => [b] | none => [])) ++
    (match g.pending_white_move with | some p => [p] | none => [])

/-- Replay a SAN sequence from the standard initial position, failing when
any ply does not resolve to a legal move. -/
def replay_sans : Board → List (List Char) → Option Board
  | b, [] => some b
  | b, s :: rest =>
    match push_san b s with
    | some b2 => replay_sans b2 rest
    | none => none

/-- The history/position consistency invariant of the spec: the current
position equals the one obtained by replaying `moveRecords()` plus
`pendingWhiteSan()` from the initial position. -/
def history_position_consistent (g : ChessGame) : Bool :=
  match replay_sans ⟨[]⟩ (sans_of g) with
  | some b => b.position == g.board.position
  | none => false

/-- The claim's predicate on histories: every record except possibly the
last has a black half. -/
def all_but_last_complete (moves : List (List Char × Option (List Char))) : Bool :=
  moves.dropLast.all fun p => p.2.isSome

/-- One rendered record exactly as the claim words it: a complete record is
`"<i>. <white> <black> "`, a record with absent black half is
`"<i>. <white> "`. -/
def record_line_claimed (i : Nat) (w : List Char) :
    Option (List Char) → List Char
  | some b => nat_repr i ++ strL ". " ++ w ++ [' '] ++ b ++ [' ']
  | none => nat_repr i ++ strL ". " ++ w ++ [' ']

/-- The rendering the claim describes: claimed record lines joined with
newlines, the result appended as the final line, an empty move list
rendering as the result alone. -/
def rendered_claimed (moves : List (List Char × Option (List Char)))
    (result : List Char) : List Char :=
  if moves.isEmpty then result
  else
    List.intercalate ['\n']
      ((((List.range moves.length).zip moves).map fun p =>
        record_line_claimed (p.1 + 1) p.2.1 p.2.2) ++ [result])

/-- One rendered record as amended: a record whose black half is absent
*or empty* renders just the white half. -/
def record_line_amended (i : Nat) (w : List Char) :
    Option (List Char) → List Char
  | some b =>
    if b = [] then nat_repr i ++ strL ". " ++ w ++ [' ']
    else nat_repr i ++ strL ". " ++ w ++ [' '] ++ b ++ [' ']
  | none => nat_repr i ++ strL ". " ++ w ++ [' ']

/-- The amended rendering: amended record lines joined with newlines, the
result as the final line. -/
def rendered_amended (moves : List (List Char × Option (List Char)))
    (result : List Char) : List Char :=
  if moves.isEmpty then result
  else
    List.intercalate ['\n']
      ((((List.range moves.length).zip moves).map fun p =>
        record_line_amended (p.1 + 1) p.2.1 p.2.2) ++ [result])

/-! ### Concrete scenario states -/

/-- A fresh session with empty metadata. -/
def game0 : ChessGame := chess_game_init []

/-- Propose `e4` for White on the fresh session. -/
def after_e4 : ChessGame × Bool × List Char :=
  validate_and_add_move game0 (strL "e4") white_str

/-- Session after `e4`: pending white half-move. -/
def g_e4 : ChessGame := after_e4.1

/-- Propose `e5` for Black, completing the first pair. -/
def after_e4e5 : ChessGame × Bool × List Char :=
  validate_and_add_move g_e4 (strL "e5") black_str

/-- Session after `e4 e5`. -/
def g_e4e5 : ChessGame := after_e4e5.1

/-- Propose `Nf3` for White: a new pending half-move. -/
def after_nf3 : ChessGame × Bool × List Char :=
  validate_and_add_move g_e4e5 (strL "Nf3") white_str

/-- Session after `e4 e5 Nf3` with `Nf3` pending. -/
def g_nf3 : ChessGame := after_nf3.1

/-- Edit move 1 (White) to `d4` while `Nf3` is pending. -/
def after_edit_d4 : ChessGame × Bool × List Char :=
  edit_move g_nf3 1 white_str (strL "d4")

/-- Session after the successful edit. -/
def g_edit : ChessGame := after_edit_d4.1

/-- Finalize the pending `e4` into an incomplete record. -/
def g_fin : ChessGame := finalize_pending_move g_e4

/-- Propose `e5` for Black with no pending white move. -/
def after_black_e5 : ChessGame × Bool × List Char :=
  validate_and_add_move g_fin (strL "e5") black_str

/-- Session after the failed black proposal. -/
def g_bad : ChessGame := after_black_e5.1

/-- Propose `Nf3` for White on the damaged session. -/
def after_bad_nf3 : ChessGame × Bool × List Char :=
  validate_and_add_move g_bad (strL "Nf3") white_str

/-- Session with `Nf3` pending after the damaged state. -/
def g_bad2 : ChessGame := after_bad_nf3.1

/-- Propose `Nc6` for Black, appending a record after the incomplete one. -/
def after_bad_nc6 : ChessGame × Bool × List Char :=
  validate_and_add_move g_bad2 (strL "Nc6") black_str

/-- Session whose first record is incomplete but not last. -/
def g_bad3 : ChessGame := after_bad_nc6.1

/-- Propose the malformed `e9` for White while `e4` is pending. -/
def after_bad_white : ChessGame × Bool × List Char :=
  validate_and_add_move g_e4 (strL "e9") white_str

/-- A concrete session with a pending white half-move (for witnesses). -/
def g_pending_demo : ChessGame :=
  { metadata := [], moves := [], result := strL "*", board := ⟨[⟨12, 28, none⟩]⟩,
    pending_white_move := some (strL "e4") }

/-- A concrete session whose last record is a completed pair (for witnesses). -/
def g_pair_demo : ChessGame :=
  { metadata := [], moves := [(strL "e4", some (strL "e5"))], result := strL "*",
    board := ⟨[⟨12, 28, none⟩, ⟨52, 36, none⟩]⟩, pending_white_move := none }


set_option maxHeartbeats 4000000

/-- C1: refuted at a concrete input — after the all-successful sequence
`e4` (White), `e5` (Black), `Nf3` (White), `editMove 1 White d4`, the
history/position consistency invariant fails: the board holds the position
after `d4 e5` while replaying `moveRecords()` plus the still-pending `Nf3`
reaches the position after `d4 e5 Nf3`.  `edit_move` replays only
`self.moves` and drops the pending half-move's ply from the board. -/
theorem c1_edit_with_pending_desyncs_position :
    after_e4.2.1 = true ∧ after_e4e5.2.1 = true ∧ after_nf3.2.1 = true ∧
    history_position_consistent g_nf3 = true ∧
    after_edit_d4.2.1 = true ∧
    g_edit.pending_white_move = some (strL "Nf3") ∧
    history_position_consistent g_edit = false := by decide

/-- C2: refuted at a concrete input — after `e4` (White) and
`finalize_pending_move`, proposing `e5` for Black returns the
no-pending-white-move failure yet leaves the board advanced by the parsed
`e5`: `validate_and_add_move` pushes the move before the pending check and
does not pop it on this failure path.  History and the pending slot are
unchanged; the board is not. -/
theorem c2_failed_black_proposal_mutates_board :
    after_e4.2.1 = true ∧
    after_black_e5.2.1 = false ∧
    after_black_e5.2.2 = strL "Cannot add black move without a white move first" ∧
    g_bad.moves = g_fin.moves ∧
    g_bad.pending_white_move = g_fin.pending_white_move ∧
    g_bad.board ≠ g_fin.board := by decide

/-- C5: refuted at a concrete reachable state — continuing from the C2
state with the successful `Nf3` (White) and `Nc6` (Black), the history
becomes `[(e4, none), (Nf3, Nc6)]`: the incomplete record is no longer
last, because the failed black proposal had silently advanced the board,
handing the turn back to White with the incomplete record already
committed. -/
theorem c5_incomplete_record_not_last :
    after_bad_nf3.2.1 = true ∧ after_bad_nc6.2.1 = true ∧
    g_bad3.moves = [(strL "e4", none), (strL "Nf3", some (strL "Nc6"))] ∧
    all_but_last_complete g_bad3.moves = false := by decide

/-- C6: refuted at concrete inputs — `bxc5` matches the validator's own
`PAWN_CAPTURE` pattern and `b8=Q` its `PAWN_PROMOTION` pattern, yet
`validate_move` rejects both with the lowercase-piece message (naming
`Bxc5` and `B8=Q`): the early `move[0] in "kqrbn"` check fires on the
b-file before the patterns are consulted. -/
theorem c6_bfile_pawn_moves_rejected :
    pawnCaptureMatch (strL "bxc5") = true ∧
    pawnPromotionMatch (strL "b8=Q") = true ∧
    validate_move (strL "bxc5") = (false, uppercase_msg (strL "bxc5")) ∧
    validate_move (strL "b8=Q") = (false, uppercase_msg (strL "b8=Q")) := by decide

/-- Popping a just-pushed move restores the board. -/
theorem pop_push (b : Board) (m : Move) : (b.push m).pop = b := by
  obtain ⟨stk⟩ := b
  simp [Board.push, Board.pop]

/-- C3: if `edit_move` returns failure — malformed SAN, move number out of
range, missing black half, or an illegal ply during the replay — the
session is returned exactly as it was: every failure path precedes the
commit of `temp_moves`/`temp_board`. -/
theorem c3_edit_failure_preserves_state (g : ChessGame) (n : Int)
    (color new_move : List Char)
    (hfail : (edit_move g n color new_move).2.1 = false) :
    (edit_move g n color new_move).1 = g := by
  simp only [edit_move] at hfail ⊢
  split at hfail
  · rename_i hv
    rw [if_pos hv]
  · rename_i hv
    rw [if_neg hv]
    split at hfail
    · rename_i hn
      rw [if_pos hn]
    · rename_i hn
      rw [if_neg hn]
      split at hfail
      · rename_i hb
        rw [if_pos hb]
      · rename_i hb
        rw [if_neg hb]
        split at hfail
        · rfl
        · simp at hfail

/-- C3 witness: editing move 1 of an empty session fails (invalid move
number) and leaves the session untouched. -/
theorem c3_witness :
    (edit_move game0 1 white_str (strL "d4")).2.1 = false ∧
    (edit_move game0 1 white_str (strL "d4")).1 = game0 :=
  ⟨by decide, c3_edit_failure_preserves_state game0 1 white_str (strL "d4") (by decide)⟩

/-- C4: refuted at a concrete input — with `e4` pending, proposing the
malformed `e9` for White fails, and the following `undoHalfMove` removes
the pending `e4` instead of restoring the pre-proposal state: the claim
quantifies over every SAN string, including ones whose proposal fails. -/
theorem c4_counterexample :
    after_e4.2.1 = true ∧
    after_bad_white.2.1 = false ∧
    g_e4.pending_white_move = some (strL "e4") ∧
    (undo_last_move after_bad_white.1).1.pending_white_move ≠
      g_e4.pending_white_move ∧
    (undo_last_move after_bad_white.1).1.board ≠ g_e4.board := by decide

/-- C4 (amended): whenever `proposeMove` succeeds — and, for a white move,
no white half-move was already pending — `undoHalfMove` restores the
session exactly: history, pending slot and board. -/
theorem c4_undo_inverts_successful_propose (g : ChessGame)
    (san color : List Char)
    (hok : (validate_and_add_move g san color).2.1 = true)
    (hpend : color = white_str → g.pending_white_move = none) :
    undo_last_move (validate_and_add_move g san color).1 = (g, true) := by
  obtain ⟨md, mv, res, bd, pw⟩ := g
  simp only [validate_and_add_move] at hok ⊢
  split at hok
  · simp at hok
  · rename_i hv
    rw [if_neg hv]
    split at hok
    · simp at hok
    · rename_i ht
      rw [if_neg ht]
      split at hok
      · simp at hok
      · rename_i m heq
        split at hok
        · rename_i hcw
          rw [if_pos hcw]
          have hp : pw = none := hpend hcw
          subst hp
          simp [undo_last_move, pop_push]
        · rename_i hcw
          rw [if_neg hcw]
          split at hok
          · rename_i p
            simp [undo_last_move, add_move, pop_push, List.getLast?_concat,
              List.dropLast_concat]
          · simp at hok

/-- C4 witness: `e4` proposed on a fresh session then undone restores the
fresh session. -/
theorem c4_witness :
    undo_last_move (validate_and_add_move game0 (strL "e4") white_str).1 =
      (game0, true) :=
  c4_undo_inverts_successful_propose game0 (strL "e4") white_str (by decide)
    (fun _ => rfl)

/-- C7: refuted at a concrete input — `set_result` with an invalid result
string raises `ValueError` (the `raised` constructor) rather than
returning a recoverable outcome. -/
theorem c7_counterexample :
    set_result game0 (strL "invalid") =
      PyResult.raised (invalid_result_msg (strL "invalid")) ∧
    (set_result game0 (strL "invalid")).isOk = false := by decide

/-- C7 (amended): `set_result` accepts exactly the four standard result
strings, updating both the result field and `metadata["Result"]`, with no
precondition on the session state; any other string raises `ValueError`
instead of returning a recoverable error. -/
theorem c7_set_result_behavior (g : ChessGame) (r : List Char) :
    (r ∈ valid_results →
      set_result g r = PyResult.ok { g with result := r,
                                            metadata := dict_set g.metadata (strL "Result") r }) ∧
    (r ∉ valid_results →
      set_result g r = PyResult.raised (invalid_result_msg r)) := by
  constructor <;> intro h <;> simp [set_result, h]

/-- C7 witness: `1-0` is accepted on the fresh session, and `xx` raises. -/
theorem c7_witness :
    set_result game0 (strL "1-0") =
      PyResult.ok { game0 with result := strL "1-0",
                               metadata := dict_set game0.metadata (strL "Result") (strL "1-0") } ∧
    set_result game0 (strL "xx") =
      PyResult.raised (invalid_result_msg (strL "xx")) :=
  ⟨(c7_set_result_behavior game0 (strL "1-0")).1 (by decide),
   (c7_set_result_behavior game0 (strL "xx")).2 (by decide)⟩

/-- C8: `nf3` is rejected with the malformed-notation message naming the
uppercase correction `Nf3`; and in general any trimmed move starting with
a lowercase piece letter among `k`, `q`, `r`, `n` that is not a bare
two-character square is rejected with the uppercase-correction message. -/
theorem c8_lowercase_piece_message :
    validate_move (strL "nf3") = (false, uppercase_msg (strL "nf3")) ∧
    (strL "Nf3") <:+: (validate_move (strL "nf3")).2 ∧
    ∀ (c : Char) (rest : List Char),
      trimChars (c :: rest) = c :: rest →
      (c = 'k' ∨ c = 'q' ∨ c = 'r' ∨ c = 'n') →
      (∀ d, rest = [d] → isRankChar d = false) →
      validate_move (c :: rest) = (false, uppercase_msg (c :: rest)) := by
  refine ⟨by decide, by decide, ?_⟩
  intro c rest htrim hc hnot
  have hlc : lowercase_reject (c :: rest) = true := by
    have hcp : isLcPiece c = true := by
      rcases hc with h | h | h | h <;> subst h <;> decide
    simp only [lowercase_reject]
    rw [hcp]
    cases rest with
    | nil => rfl
    | cons d tl =>
      cases tl with
      | nil => simp [hnot d rfl]
      | cons d2 tl2 => simp
  simp [validate_move, htrim, hlc]

/-- C8 witness: `ke2` instantiates the universal clause. -/
theorem c8_witness :
    validate_move ['k', 'e', '2'] = (false, uppercase_msg ['k', 'e', '2']) :=
  c8_lowercase_piece_message.2.2 'k' ['e', '2'] (by decide) (by decide)
    (by intro d h; simp at h)

/-- Each rendered line of `format_moves` agrees with the amended record
rendering (absent or empty black half renders just the white half). -/
theorem line_text_eq (i : Nat) (w : List Char) (b : Option (List Char)) :
    line_text i w b = record_line_amended i w b := by
  cases b with
  | none => rfl
  | some s =>
    cases s with
    | nil => rfl
    | cons c tl => simp [line_text, record_line_amended, option_truthy]

/-- The `enumerate` loop of `format_moves` renders exactly the indexed map
of the amended record rendering. -/
theorem format_lines_eq (ms : List (List Char × Option (List Char))) :
    ∀ i, format_lines i ms = ((List.range ms.length).zip ms).map
      (fun p => record_line_amended (p.1 + i) p.2.1 p.2.2) := by
  induction ms with
  | nil => intro i; rfl
  | cons hd tl ih =>
    intro i
    simp only [format_lines, List.length_cons, List.range_succ_eq_map,
      List.zip_cons_cons, List.map_cons]
    rw [line_text_eq]
    congr 1
    · show record_line_amended i hd.1 hd.2 = record_line_amended (0 + i) hd.1 hd.2
      rw [Nat.zero_add]
    · rw [ih (i + 1), List.zip_map_left, List.map_map]
      symm
      apply List.map_congr_left
      intro a _
      obtain ⟨j, pr⟩ := a
      show record_line_amended (Nat.succ j + i) pr.1 pr.2 =
        record_line_amended (j + (i + 1)) pr.1 pr.2
      rw [Nat.succ_add, Nat.add_succ]

/-- C9: refuted at a concrete input — a record whose black half is the
empty string is complete (`blackSan` present) but renders as just the
white half, because the source tests Python truthiness, not presence. -/
theorem c9_counterexample :
    format_moves [(strL "e4", some [])] (strL "*") ≠
      rendered_claimed [(strL "e4", some [])] (strL "*") := by decide

/-- C9 (amended): `format_moves` renders each record whose black half is
present and non-empty as `"<i>. <white> <black> "`, each record whose
black half is absent or empty as `"<i>. <white> "`, joins the lines with
newlines with the result as the final line, and renders an empty move list
as the result alone. -/
theorem c9_format_moves_rendering (moves : List (List Char × Option (List Char)))
    (result : List Char) :
    format_moves moves result = rendered_amended moves result := by
  unfold format_moves rendered_amended
  cases moves with
  | nil => rfl
  | cons hd tl =>
    rw [if_neg (by simp), if_neg (by simp), format_lines_eq]

/-- C10: the pending white half-move is held only in the pending slot —
the query functions read the history it is excluded from; a white proposal
never touches the history; a record is appended exactly by a successful
black proposal (completing the pending pair) or by `finalize_pending_move`
(committing it incomplete); and undoing a completed pair removes the whole
last record, re-installing its white SAN as pending. -/
theorem c10_pending_separation :
    (∀ g : ChessGame, get_moves_list g = g.moves ∧
      get_move_count g = g.moves.length ∧
      has_pending_white_move g = g.pending_white_move.isSome) ∧
    (∀ (g : ChessGame) (san : List Char),
      (validate_and_add_move g san white_str).2.1 = true →
      (validate_and_add_move g san white_str).1.moves = g.moves ∧
      (validate_and_add_move g san white_str).1.pending_white_move = some san) ∧
    (∀ (g : ChessGame) (san : List Char),
      (validate_and_add_move g san black_str).2.1 = true →
      ∃ p, g.pending_white_move = some p ∧
        (validate_and_add_move g san black_str).1.moves =
          g.moves ++ [(p, some san)] ∧
        (validate_and_add_move g san black_str).1.pending_white_move = none) ∧
    (∀ (g : ChessGame) (p : List Char), g.pending_white_move = some p →
      finalize_pending_move g =
        { g with moves := g.moves ++ [(p, none)], pending_white_move := none }) ∧
    (∀ g : ChessGame, g.pending_white_move = none →
      finalize_pending_move g = g) ∧
    (∀ (g : ChessGame) (ms : List (List Char × Option (List Char)))
        (w b : List Char),
      g.pending_white_move = none → g.moves = ms ++ [(w, some b)] →
      undo_last_move g =
        ({ g with moves := ms, pending_white_move := some w,
                  board := g.board.pop }, true)) := by
  refine ⟨fun g => ⟨rfl, rfl, rfl⟩, ?_, ?_, ?_, ?_, ?_⟩
  · intro g san hok
    obtain ⟨md, mv, res, bd, pw⟩ := g
    simp only [validate_and_add_move] at hok ⊢
    split at hok
    · simp at hok
    · rename_i hv
      rw [if_neg hv]
      split at hok
      · simp at hok
      · rename_i ht
        rw [if_neg ht]
        split at hok
        · simp at hok
        · rename_i m heq
          simp
  · intro g san hok
    obtain ⟨md, mv, res, bd, pw⟩ := g
    simp only [validate_and_add_move] at hok ⊢
    split at hok
    · simp at hok
    · rename_i hv
      rw [if_neg hv]
      split at hok
      · simp at hok
      · rename_i ht
        rw [if_neg ht]
        split at hok
        · simp at hok
        · rename_i m heq
          have hbw : ¬(black_str = white_str) := by decide
          rw [if_neg hbw]
          cases pw with
          | some p => exact ⟨p, rfl, rfl, rfl⟩
          | none =>
            rw [if_neg hbw] at hok
            simp at hok
  · intro g p hp
    obtain ⟨md, mv, res, bd, pw⟩ := g
    simp only at hp
    subst hp
    rfl
  · intro g hp
    obtain ⟨md, mv, res, bd, pw⟩ := g
    simp only at hp
    subst hp
    rfl
  · intro g ms w b hp hm
    obtain ⟨md, mv, res, bd, pw⟩ := g
    simp only at hp hm
    subst hp
    subst hm
    simp [undo_last_move, List.getLast?_concat, List.dropLast_concat]

/-- C10 witness: finalizing a pending `e4` commits it as an incomplete
record, and undoing a session whose last record is the completed pair
`(e4, e5)` drops the record and re-installs `e4` as pending. -/
theorem c10_witness :
    finalize_pending_move g_pending_demo =
      { g_pending_demo with moves := g_pending_demo.moves ++ [(strL "e4", none)],
                            pending_white_move := none } ∧
    undo_last_move g_pair_demo =
      ({ g_pair_demo with moves := [], pending_white_move := some (strL "e4"),
                          board := g_pair_demo.board.pop }, true) :=
  ⟨c10_pending_separation.2.2.2.1 g_pending_demo (strL "e4") rfl,
   c10_pending_separation.2.2.2.2.2 g_pair_demo [] (strL "e4") (strL "e5")
     rfl rfl⟩
